import Mathlib

/-!
Verification of the l2go authentication gateway core against its design
specification.  The Go source is shallowly embedded: bytes are `Nat`
(values below 256 where it matters, with explicit `% 256` / `% 65536`
truncation mirroring Go integer conversions), byte slices are `List Nat`,
`bytes.Reader` is a list of the remaining bytes, and each read operation
returns the value together with the rest of the list.  Fallible code
(Go panics such as out-of-range slice indexing) is embedded as `Option`.
-/

namespace Packets

/-- Little-endian bytes of `uint16(v)`, as written by `Buffer.WriteUInt16`
(`binary.Write` with `binary.LittleEndian`); the `% 65536` mirrors Go's
truncating conversion to `uint16`. -/
def WriteUInt16 (v : Nat) : List Nat :=
  [v % 65536 % 256, v % 65536 / 256]

/-- Single byte written by `Buffer.WriteUInt8`. -/
def WriteUInt8 (v : Nat) : List Nat :=
  [v % 256]

/-- `Buffer.WritePacketHeader`: a 2-byte little-endian length followed by a
1-byte opcode. -/
def WritePacketHeader (opcode length : Nat) : List Nat :=
  WriteUInt16 length ++ WriteUInt8 opcode

/-- `Buffer.PrependLength`: prepends `uint16(len(data))` (little-endian) to
the buffer's current content. -/
def PrependLength (content : List Nat) : List Nat :=
  WriteUInt16 content.length ++ content

/-- A login-protocol frame as built by the codec: the buffer is filled with
the opcode byte followed by the payload, then `PrependLength` is applied. -/
def encodePacket (opcode : Nat) (payload : List Nat) : List Nat :=
  PrependLength (WriteUInt8 opcode ++ payload)

/-- `Buffer.WriteString`: each rune is written as a little-endian `uint16`
code unit, followed by a 16-bit zero terminator.  The string is embedded as
the list of its runes' code points. -/
def WriteString (s : List Nat) : List Nat :=
  (s.flatMap fun r => WriteUInt16 r) ++ [0, 0]

/-- `Reader.ReadBytes(number)`: `r.Read` fills at most `number` bytes from
the remaining input (always advancing past what it read); if fewer than
`number` bytes were available the method discards the partial buffer and
returns the empty slice.  Returns `(result, remaining input)`. -/
def ReadBytes (number : Nat) (r : List Nat) : List Nat × List Nat :=
  let n := min number r.length
  let buffer := r.take n ++ List.replicate (number - n) 0
  if n < number then ([], r.drop n) else (buffer, r.drop n)

/-- `Reader.ReadUInt16`: reads two bytes little-endian; a short read
consumes what is available and yields 0. -/
def ReadUInt16 : List Nat → Nat × List Nat
  | b0 :: b1 :: rest => (b0 + 256 * b1, rest)
  | _ => (0, [])

/-- `Reader.ReadUInt8`: reads one byte; a short read yields 0. -/
def ReadUInt8 : List Nat → Nat × List Nat
  | b :: rest => (b, rest)
  | _ => (0, [])

/-- `Reader.ReadString`: reads byte pairs until a `(0x00, 0x00)` pair,
accumulating both bytes of every non-terminator pair; `ReadByte` past the
end of the input yields 0, so exhaustion looks like a terminator (one
phantom 0 is accumulated when the input ends mid-pair).  The Go function
returns `string(result)`, i.e. the accumulated bytes reinterpreted as a
string; we return those bytes. -/
def ReadString : List Nat → List Nat
  | b1 :: b2 :: rest =>
      if b1 = 0 ∧ b2 = 0 then [] else b1 :: b2 :: ReadString rest
  | [b1] => if b1 = 0 then [] else [b1, 0]
  | [] => []

/-- Frame decoding with the `Reader`, as the state machine consumes a
frame: the `uint16` length field, the `uint8` opcode, then the remaining
bytes. -/
def decodeFrame (frame : List Nat) : Nat × Nat × List Nat :=
  let lenRest := ReadUInt16 frame
  let opRest := ReadUInt8 lenRest.2
  (lenRest.1, opRest.1, opRest.2)

end Packets

namespace Crypto

/-- The external block-cipher collaborator held by `CryptoEngine`
(`cipher.Block` from `golang.org/x/crypto/blowfish`): a block size and the
per-block transforms.  The key schedule lives outside the repository; the
engine code under verification is the padding and block-looping logic. -/
structure BlockCipher where
  blockSize : Nat
  encryptBlock : List Nat → List Nat
  decryptBlock : List Nat → List Nat

/-- The block loop `for i := 0; i < len(data); i += blockSize`, applied to
`k` consecutive blocks of width `bs`. -/
def processBlocks (f : List Nat → List Nat) (bs : Nat) : Nat → List Nat → List Nat
  | 0, _ => []
  | k + 1, l => f (l.take bs) ++ processBlocks f bs k (l.drop bs)

/-- `((len(data)+blockSize-1)/blockSize)*blockSize`: the padded buffer
length allocated by `CryptoEngine.EncryptBlowfish`. -/
def paddedLength (n bs : Nat) : Nat :=
  ((n + bs - 1) / bs) * bs

/-- `CryptoEngine.EncryptBlowfish`: zero-pad the data up to the next block
boundary, then encrypt block by block. -/
def EncryptBlowfish (c : BlockCipher) (data : List Nat) : List Nat :=
  let padded := data ++
    List.replicate (paddedLength data.length c.blockSize - data.length) 0
  processBlocks c.encryptBlock c.blockSize (padded.length / c.blockSize) padded

/-- `CryptoEngine.DecryptBlowfish`: reject input whose length is not a
block multiple, otherwise decrypt block by block.  `none` is the Go error
return. -/
def DecryptBlowfish (c : BlockCipher) (data : List Nat) : Option (List Nat) :=
  if data.length % c.blockSize = 0 then
    some (processBlocks c.decryptBlock c.blockSize (data.length / c.blockSize) data)
  else none

/-- The `xor.Cipher` value: two 8-byte key buffers, one per direction. -/
structure XorCipher where
  inputKey : List Nat
  outputKey : List Nat
deriving DecidableEq

/-- Modelled from the spec: `xor.NewCipher` (package `gameserver/crypt/xor`)
is not under `src/`; per §4.2 the world-channel engine owns two independent
8-byte key buffers seeded at handshake time.  The default key material is
immaterial to the theorems below. -/
def NewCipherXor : XorCipher :=
  ⟨List.replicate 8 0, List.replicate 8 0⟩

/-- Modelled from the spec: the keystream application of `xor.Encrypt` /
`xor.Decrypt` (not under `src/`) — a stream cipher XORing each byte with
the corresponding key byte (key cycled over its 8 bytes). -/
def xorApply (key data : List Nat) : List Nat :=
  data.enum.map fun p => p.2 ^^^ key.getD (p.1 % 8) 0

/-- Modelled from the spec: the key-advancement rule of the rolling-key
world-channel cipher (package `gameserver/crypt/xor`, not under `src/`).
Per §4.2 each operation deterministically advances the key from the bytes
just processed; the exact rule is an open question in the spec, so we use
the customary shape for this protocol — add the number of bytes processed
into the key's first 32-bit little-endian word.  The theorems below hold
for every choice of rule, because the engine discards the advanced key. -/
def advanceKey (key processed : List Nat) : List Nat :=
  let w := key.getD 0 0 + 256 * key.getD 1 0 + 65536 * key.getD 2 0 +
    16777216 * key.getD 3 0
  let w2 := (w + processed.length) % 4294967296
  [w2 % 256, w2 / 256 % 256, w2 / 65536 % 256, w2 / 16777216 % 256] ++
    key.drop 4

/-- Modelled from the spec: `xor.Encrypt` enciphers with the current key
and mutates the key slice it is handed; the pair returns (ciphertext,
advanced key). -/
def xorEncrypt (data key : List Nat) : List Nat × List Nat :=
  (xorApply key data, advanceKey key data)

/-- Modelled from the spec: `xor.Decrypt`, the inverse transform under the
same key, advancing the key the same way. -/
def xorDecrypt (data key : List Nat) : List Nat × List Nat :=
  (xorApply key data, advanceKey key data)

/-- `CryptoEngine.InitializeXOR`: build a fresh `xor.NewCipher` and, when
at least 8 key bytes were supplied, copy the first 8 into both direction
buffers. -/
def InitXOR (key : List Nat) : XorCipher :=
  let cipher := NewCipherXor
  if 8 ≤ key.length then ⟨key.take 8, key.take 8⟩ else cipher

/-- `CryptoEngine.EncryptXOR`: the Go code copies `OutputKey` into a local
slice and hands that copy to `xor.Encrypt`, so the advanced key is
discarded with the copy — the engine state is returned unchanged. -/
def EncryptXOR (st : XorCipher) (data : List Nat) : List Nat × XorCipher :=
  let keyCopy := st.outputKey
  ((xorEncrypt data keyCopy).1, st)

/-- `CryptoEngine.DecryptXOR`: same copy-and-discard of `InputKey`. -/
def DecryptXOR (st : XorCipher) (data : List Nat) : List Nat × XorCipher :=
  let keyCopy := st.inputKey
  ((xorDecrypt data keyCopy).1, st)

/-- Encrypting a sequence of messages in order, threading the engine
state. -/
def encryptSeq (st : XorCipher) : List (List Nat) → List (List Nat) × XorCipher
  | [] => ([], st)
  | m :: ms =>
      let r := EncryptXOR st m
      let rs := encryptSeq r.2 ms
      (r.1 :: rs.1, rs.2)

/-- Decrypting a sequence of ciphertexts in order, threading the engine
state. -/
def decryptSeq (st : XorCipher) : List (List Nat) → List (List Nat) × XorCipher
  | [] => ([], st)
  | c :: cs =>
      let r := DecryptXOR st c
      let rs := decryptSeq r.2 cs
      (r.1 :: rs.1, rs.2)

end Crypto

namespace LoginServer

/-- `models.Account`: the `access_level` column is a `TINYINT` (`int8`),
embedded as `Int`. -/
structure Account where
  id : Int
  username : String
  password : String
  accessLevel : Int
deriving DecidableEq

/-- Modelled from the spec: the constant `ACCESS_LEVEL_PLAYER` is declared
elsewhere in the `loginserver` package (not under `src/`).  Per §4.4
auto-created accounts get the default lowest "player" access level, and the
repository's schema defaults `access_level` to 0. -/
def ACCESS_LEVEL_PLAYER : Int := 0

/-- `models.Client` as the state machine uses it: the session identifier
issued at accept time (a fixed-length 16-byte random token per §3; its
first 8 bytes are the prefix compared against requests) and the bound
account (`models.NewClient` itself is not under `src/`; the zero `Account`
stands for the unbound state). -/
structure Client where
  sessionID : List Nat
  account : Account
deriving DecidableEq

/-- Modelled from the spec: the failure-reason constants of the
`serverpackets` package (not under `src/`); the three observed codes are
system-error, wrong-credentials and access-denied (§6). -/
inductive Reason
  | REASON_SYSTEM_ERROR
  | REASON_USER_OR_PASS_WRONG
  | REASON_ACCESS_FAILED
deriving DecidableEq

/-- Modelled from the spec: the `serverpackets` constructors invoked from
the state machine (package not under `src/`).  Distinct packet kinds —
`NewLoginOkPacket`, `NewLoginFailPacket`, `NewPlayOkPacket`,
`NewPlayFailPacket`, `NewServerListPacket` — are distinct constructors;
payload layout beyond the carried reason/session identifier is immaterial
to the claims. -/
inductive ServerPacket
  | loginOk (sessionID : List Nat)
  | loginFail (reason : Reason)
  | playOk
  | playFail (reason : Reason)
  | serverList
deriving DecidableEq

/-- `loginServerStatus`: five `uint32` counters. -/
structure Status where
  successfulAccountCreation : Nat
  failedAccountCreation : Nat
  successfulLogins : Nat
  failedLogins : Nat
  hackAttempts : Nat
deriving DecidableEq

/-- `x += 1` on a `uint32` counter: increment modulo 2^32. -/
def inc32 (n : Nat) : Nat :=
  (n + 1) % 4294967296

/-- Modelled from the spec: a world-server directory entry
(`config.GameServers[..].Options.Testing`; the `config` package is not
under `src/`): the "testing" flag restricting access to elevated
accounts. -/
structure GameServer where
  testing : Bool
deriving DecidableEq

/-- The configuration the state machine consults: the auto-create switch
and the world-server directory. -/
structure Config where
  autoCreate : Bool
  gameServers : List GameServer
deriving DecidableEq

/-- Modelled from the spec: `clientpackets.NewRequestPlay` (not under
`src/`); per §6 the play request carries a target world-server id (one
byte, hence a value below 256) and an 8-byte session-identifier prefix. -/
structure RequestPlay where
  sessionID : List Nat
  serverID : Nat
deriving DecidableEq

/-- Modelled from the spec: `clientpackets.NewRequestServerList` (not under
`src/`); the server-list request carries a session-identifier prefix. -/
structure RequestServerList where
  sessionID : List Nat
deriving DecidableEq

/-- Modelled from the spec: `clientpackets.NewRequestAuthLogin` (not under
`src/`); the auth-login request carries username and password. -/
structure RequestAuthLogin where
  username : String
  password : String
deriving DecidableEq

/-- The outcome of the database lookup
(`QueryRow("SELECT ... WHERE username = ?").Scan`): no rows, another
database error, or the stored account. -/
inductive DbLookup
  | noRows
  | dbError
  | found (account : Account)
deriving DecidableEq

/-- One observed outcome of each external collaborator reached from the
auth-login branch: the database lookup, `bcrypt.GenerateFromPassword`
(`none` = hash error), the `INSERT` (`none` = persistence error, `some id`
= `LastInsertId`), and `bcrypt.CompareHashAndPassword` (`true` = match).
These collaborators are out of scope per §1; a handler run observes one
outcome of each. -/
structure AuthExternals where
  lookup : DbLookup
  hashResult : Option String
  insertResult : Option Int
  passwordMatches : Bool
deriving DecidableEq

/-- A dispatched client packet (the opcode switch of
`handleClientPackets`). -/
inductive ClientPacket
  | authLogin (req : RequestAuthLogin)
  | requestPlay (req : RequestPlay)
  | requestServerList (req : RequestServerList)
  | unknown (opcode : Nat)
deriving DecidableEq

/-- What one iteration of the read-dispatch loop produces: the updated
counters, the updated per-connection client state, the response packet (if
any), and whether the connection stays open (the `switch` never breaks the
loop; only a `Receive` error does, outside packet handling). -/
structure StepResult where
  status : Status
  client : Client
  response : Option ServerPacket
  connectionOpen : Bool
deriving DecidableEq

/-- The `case 00` (auth-login) branch of `handleClientPackets`, with the
external outcomes supplied by `ext`. -/
def handleAuthLogin (cfg : Config) (client : Client) (req : RequestAuthLogin)
    (ext : AuthExternals) (st : Status) : Status × ServerPacket × Client :=
  match ext.lookup with
  | DbLookup.noRows =>
      if cfg.autoCreate then
        match ext.hashResult with
        | none =>
            ({st with failedAccountCreation := inc32 st.failedAccountCreation},
             ServerPacket.loginFail Reason.REASON_SYSTEM_ERROR, client)
        | some hashedPassword =>
            match ext.insertResult with
            | none =>
                ({st with failedAccountCreation := inc32 st.failedAccountCreation},
                 ServerPacket.loginFail Reason.REASON_SYSTEM_ERROR, client)
            | some accountId =>
                ({st with
                    successfulAccountCreation := inc32 st.successfulAccountCreation},
                 ServerPacket.loginOk client.sessionID,
                 {client with account :=
                    ⟨accountId, req.username, hashedPassword, ACCESS_LEVEL_PLAYER⟩})
      else
        ({st with failedLogins := inc32 st.failedLogins},
         ServerPacket.loginFail Reason.REASON_USER_OR_PASS_WRONG, client)
  | DbLookup.dbError =>
      (st, ServerPacket.loginFail Reason.REASON_SYSTEM_ERROR, client)
  | DbLookup.found account =>
      let client := {client with account := account}
      if ext.passwordMatches then
        if ACCESS_LEVEL_PLAYER ≤ client.account.accessLevel then
          ({st with successfulLogins := inc32 st.successfulLogins},
           ServerPacket.loginOk client.sessionID, client)
        else
          ({st with failedLogins := inc32 st.failedLogins},
           ServerPacket.loginFail Reason.REASON_ACCESS_FAILED, client)
      else
        ({st with failedLogins := inc32 st.failedLogins},
         ServerPacket.loginFail Reason.REASON_USER_OR_PASS_WRONG, client)

/-- The `case 02` (play-request) branch.  Mirrors
`len(GameServers) >= int(ServerID) && (GameServers[ServerID-1].Options.Testing == false || AccessLevel > ACCESS_LEVEL_PLAYER)`
with Go's short-circuit evaluation: when the first conjunct holds, the
second indexes `GameServers[ServerID-1]`; `ServerID` is a `uint8`, so the
subtraction wraps (`0 - 1 = 255`) — embedded as `(serverID + 255) % 256` —
and an out-of-range index is a Go panic, embedded as `none`. -/
def handleRequestPlay (cfg : Config) (client : Client) (req : RequestPlay)
    (st : Status) : Option (Status × ServerPacket) :=
  if req.serverID ≤ cfg.gameServers.length then
    match cfg.gameServers[(req.serverID + 255) % 256]? with
    | none => none
    | some gs =>
        if gs.testing = false ∨ ACCESS_LEVEL_PLAYER < client.account.accessLevel then
          if client.sessionID.take 8 ≠ req.sessionID then
            some ({st with hackAttempts := inc32 st.hackAttempts},
              ServerPacket.loginFail Reason.REASON_ACCESS_FAILED)
          else
            some (st, ServerPacket.playOk)
        else
          some ({st with hackAttempts := inc32 st.hackAttempts},
            ServerPacket.playFail Reason.REASON_ACCESS_FAILED)
  else
    some ({st with hackAttempts := inc32 st.hackAttempts},
      ServerPacket.playFail Reason.REASON_ACCESS_FAILED)

/-- The `case 05` (server-list request) branch: the same 8-byte
session-identifier comparison; a mismatch counts a hack attempt and
replies a login-fail (access-denied). -/
def handleServerListRequest (client : Client) (req : RequestServerList)
    (st : Status) : Status × ServerPacket :=
  if client.sessionID.take 8 ≠ req.sessionID then
    ({st with hackAttempts := inc32 st.hackAttempts},
     ServerPacket.loginFail Reason.REASON_ACCESS_FAILED)
  else
    (st, ServerPacket.serverList)

/-- One iteration of the `handleClientPackets` dispatch `switch`: `none`
is a Go panic escaping the handler. -/
def handleClientPacket (cfg : Config) (client : Client) (ext : AuthExternals)
    (pkt : ClientPacket) (st : Status) : Option StepResult :=
  match pkt with
  | ClientPacket.authLogin req =>
      let r := handleAuthLogin cfg client req ext st
      some ⟨r.1, r.2.2, some r.2.1, true⟩
  | ClientPacket.requestPlay req =>
      match handleRequestPlay cfg client req st with
      | none => none
      | some r => some ⟨r.1, client, some r.2, true⟩
  | ClientPacket.requestServerList req =>
      let r := handleServerListRequest client req st
      some ⟨r.1, client, some r.2, true⟩
  | ClientPacket.unknown _ => some ⟨st, client, none, true⟩

/-- The removal loop of `LoginServer.kickClient`: scan the registry and
splice out the first entry whose session identifier equals the kicked
client's (`bytes.Equal`), then stop. -/
def removeFirstBySession (sid : List Nat) : List Client → List Client
  | [] => []
  | c :: rest =>
      if c.sessionID = sid then rest else c :: removeFirstBySession sid rest

/-- `LoginServer.kickClient`: closes the client's socket unconditionally
(the returned `Bool` records the close), then removes the first matching
registry entry, if any. -/
def kickClient (clients : List Client) (client : Client) : Bool × List Client :=
  (true, removeFirstBySession client.sessionID clients)

end LoginServer

theorem Packets.readUInt16_writeUInt16 (v : Nat) (rest : List Nat) :
    ReadUInt16 (WriteUInt16 v ++ rest) = (v % 65536, rest) := by
  simp only [WriteUInt16, List.cons_append, List.nil_append, ReadUInt16]
  have h : v % 65536 % 256 + 256 * (v % 65536 / 256) = v % 65536 := by
    have := Nat.mod_add_div (v % 65536) 256
    omega
  rw [h]

/-- Claim C1 (amended): encoding a frame with `PrependLength` (2-byte
little-endian length, 1-byte opcode, payload) and decoding it with the
`Reader` returns exactly the original opcode and payload; the 2-byte length
field equals the length of the opcode byte plus the payload — the frame's
total length minus the 2 length bytes itself (mod 2^16) — not the frame's
total length. -/
theorem c1_frame_roundtrip (opcode : Nat) (payload : List Nat)
    (hop : opcode < 256) :
    Packets.decodeFrame (Packets.encodePacket opcode payload) =
      ((1 + payload.length) % 65536, opcode, payload) ∧
    (Packets.encodePacket opcode payload).length = 3 + payload.length := by
  constructor
  · have hcontent :
        Packets.WriteUInt8 opcode ++ payload = (opcode % 256) :: payload := rfl
    have hlen : (Packets.WriteUInt8 opcode ++ payload).length =
        1 + payload.length := by
      simp [Packets.WriteUInt8, Nat.add_comm]
    simp only [Packets.decodeFrame, Packets.encodePacket, Packets.PrependLength,
      hlen, hcontent, Packets.readUInt16_writeUInt16]
    simp [Packets.ReadUInt8, Nat.mod_eq_of_lt hop, Nat.add_comm]
  · simp [Packets.encodePacket, Packets.PrependLength, Packets.WriteUInt16,
      Packets.WriteUInt8]
    omega

/-- Witness for C1's amended theorem at opcode 7, payload `[5]`. -/
theorem c1_frame_roundtrip_witness :
    Packets.decodeFrame (Packets.encodePacket 7 [5]) = (2, 7, [5]) ∧
    (Packets.encodePacket 7 [5]).length = 4 := by
  simpa using c1_frame_roundtrip 7 [5] (by decide)

/-- Counterexample to C1 as stated: the frame for opcode 7 with empty
payload is 3 bytes long in total, but its 2-byte length field holds 1
(the opcode-plus-payload length), not the frame's total length 3. -/
theorem c1_counterexample :
    (Packets.encodePacket 7 []).length = 3 ∧
    (Packets.decodeFrame (Packets.encodePacket 7 [])).1 = 1 ∧ (1 : Nat) ≠ 3 := by
  decide

/-- Claim C10: `Reader.ReadBytes` is all-or-nothing: with fewer than `n`
bytes remaining it returns the empty slice (never a partial one) and
consumes the bytes that were available; with at least `n` remaining it
returns exactly the next `n` bytes and advances the reader by `n`. -/
theorem c10_readBytes_all_or_nothing (n : Nat) (r : List Nat) :
    Packets.ReadBytes n r =
      if r.length < n then (([] : List Nat), ([] : List Nat))
      else (r.take n, r.drop n) := by
  by_cases h : r.length < n
  · have hmin : min n r.length = r.length := by omega
    simp [Packets.ReadBytes, hmin, h, List.drop_length]
  · have hmin : min n r.length = n := by omega
    simp [Packets.ReadBytes, hmin, h]

/-- Claim C6 (amended): reading back a written string yields the string's
UTF-16LE code-unit byte sequence reinterpreted as a raw byte string — both
bytes of every 16-bit unit, zero high bytes included — not the original
string, provided no character truncates to the 16-bit terminator value 0. -/
theorem c6_readString_writeString (s : List Nat)
    (h : ∀ c ∈ s, c % 65536 ≠ 0) :
    Packets.ReadString (Packets.WriteString s) =
      s.flatMap fun c => Packets.WriteUInt16 c := by
  induction s with
  | nil => rfl
  | cons c cs ih =>
      have hc : c % 65536 ≠ 0 := h c (by simp)
      have hcs : ∀ x ∈ cs, x % 65536 ≠ 0 := fun x hx => h x (by simp [hx])
      have hpair : ¬(c % 65536 % 256 = 0 ∧ c % 65536 / 256 = 0) := by
        intro hboth
        exact hc (by omega)
      have hrec : Packets.WriteString (c :: cs) =
          (c % 65536 % 256) :: (c % 65536 / 256) :: Packets.WriteString cs := by
        simp [Packets.WriteString, Packets.WriteUInt16]
      rw [hrec]
      simp only [Packets.ReadString, hpair, if_false, ih hcs]
      simp [Packets.WriteUInt16]

/-- Witness for C6's amended theorem at the one-character string "A". -/
theorem c6_readString_writeString_witness :
    Packets.ReadString (Packets.WriteString [65]) = [65, 0] := by
  simpa using c6_readString_writeString [65] (by decide)

/-- Counterexample to C6 as stated: writing the ASCII string "A" (code
point 65, byte representation `[65]`) and reading it back yields the two
bytes `[65, 0]`, not the original string. -/
theorem c6_counterexample :
    Packets.ReadString (Packets.WriteString [65]) = [65, 0] ∧
    [65, 0] ≠ ([65] : List Nat) := by
  constructor
  · rfl
  · decide

/-- Claim C7 (amended): on any finite buffer `ReadString` terminates after
consuming at most the available buffer — the embedding is a total function
and its output holds at most `|input| + 1` bytes (the `+ 1` being the
phantom zero obtained when the buffer ends in the middle of a pair) — but
on a buffer with no 16-bit zero terminator it silently returns the
accumulated bytes as the string value; no decode failure is signalled. -/
theorem c7_readString_bounded (l : List Nat) :
    (Packets.ReadString l).length ≤ l.length + 1 := by
  induction l using Packets.ReadString.induct with
  | case1 b1 b2 rest hz => simp [Packets.ReadString, hz]
  | case2 b1 b2 rest hz ih =>
      rw [show Packets.ReadString (b1 :: b2 :: rest) =
        b1 :: b2 :: Packets.ReadString rest from by
          simp [Packets.ReadString, hz]]
      simp only [List.length_cons]
      omega
  | case3 => simp [Packets.ReadString]
  | case4 b1 hb => simp [Packets.ReadString, hb]
  | case5 => simp [Packets.ReadString]

/-- Counterexample to C7 as stated: the buffer `[1, 2]` contains no 16-bit
zero terminator, yet `ReadString` returns the plain value `[1, 2]` — like
the Go signature (`string`, no error), the embedding has no failure
channel, so no decode failure is reported. -/
theorem c7_counterexample :
    Packets.ReadString [1, 2] = [1, 2] := by
  decide

theorem Crypto.le_paddedLength (n bs : Nat) (hbs : 0 < bs) :
    n ≤ Crypto.paddedLength n bs := by
  unfold Crypto.paddedLength
  rw [Nat.mul_comm]
  have h1 := Nat.div_add_mod (n + bs - 1) bs
  have h2 : (n + bs - 1) % bs < bs := Nat.mod_lt _ hbs
  omega

theorem Crypto.paddedLength_of_mod_eq_zero (n bs : Nat) (hbs : 0 < bs)
    (h : n % bs = 0) : Crypto.paddedLength n bs = n := by
  obtain ⟨q, rfl⟩ := Nat.dvd_of_mod_eq_zero h
  unfold Crypto.paddedLength
  have h1 : bs * q + bs - 1 = bs - 1 + q * bs := by
    rw [Nat.mul_comm]
    omega
  rw [h1, Nat.add_mul_div_right _ _ hbs, Nat.div_eq_of_lt (by omega)]
  ring

theorem Crypto.processBlocks_length (f : List Nat → List Nat) (bs : Nat)
    (hf : ∀ b : List Nat, b.length = bs → (f b).length = bs) :
    ∀ (k : Nat) (l : List Nat), l.length = k * bs →
      (Crypto.processBlocks f bs k l).length = k * bs := by
  intro k
  induction k with
  | zero => intro l h; simp [Crypto.processBlocks]
  | succ k ih =>
      intro l h
      rw [Nat.succ_mul] at h
      have htake : (l.take bs).length = bs := by
        simp only [List.length_take]
        omega
      have hdrop : (l.drop bs).length = k * bs := by
        simp only [List.length_drop]
        omega
      simp only [Crypto.processBlocks, List.length_append, hf _ htake,
        ih _ hdrop, Nat.succ_mul]
      omega

theorem Crypto.processBlocks_roundtrip (c : Crypto.BlockCipher)
    (hlen : ∀ b : List Nat, b.length = c.blockSize →
      (c.encryptBlock b).length = c.blockSize)
    (hinv : ∀ b : List Nat, b.length = c.blockSize →
      c.decryptBlock (c.encryptBlock b) = b) :
    ∀ (k : Nat) (l : List Nat), l.length = k * c.blockSize →
      Crypto.processBlocks c.decryptBlock c.blockSize k
        (Crypto.processBlocks c.encryptBlock c.blockSize k l) = l := by
  intro k
  induction k with
  | zero =>
      intro l h
      simp only [Nat.zero_mul] at h
      simp [Crypto.processBlocks, (List.length_eq_zero.mp h).symm]
  | succ k ih =>
      intro l h
      rw [Nat.succ_mul] at h
      have htake : (l.take c.blockSize).length = c.blockSize := by
        simp only [List.length_take]
        omega
      have hdrop : (l.drop c.blockSize).length = k * c.blockSize := by
        simp only [List.length_drop]
        omega
      have hE : (c.encryptBlock (l.take c.blockSize)).length = c.blockSize :=
        hlen _ htake
      simp only [Crypto.processBlocks]
      rw [List.take_left' hE, List.drop_left' hE, hinv _ htake, ih _ hdrop]
      exact List.take_append_drop _ l

/-- Claim C4: for every plaintext and every successfully initialized
login-channel block cipher (any block transform pair that is length
preserving and inverse on blocks, as `blowfish.NewCipher` yields),
`DecryptBlowfish (EncryptBlowfish m)` returns `m` extended with zero bytes
up to the next multiple of the block size, and exactly `m` when `m` is
already a block multiple. -/
theorem c4_blowfish_roundtrip (c : Crypto.BlockCipher) (m : List Nat)
    (hbs : 0 < c.blockSize)
    (hlen : ∀ b : List Nat, b.length = c.blockSize →
      (c.encryptBlock b).length = c.blockSize)
    (hinv : ∀ b : List Nat, b.length = c.blockSize →
      c.decryptBlock (c.encryptBlock b) = b) :
    Crypto.DecryptBlowfish c (Crypto.EncryptBlowfish c m) =
      some (m ++ List.replicate
        (Crypto.paddedLength m.length c.blockSize - m.length) 0) ∧
    (m.length % c.blockSize = 0 →
      Crypto.DecryptBlowfish c (Crypto.EncryptBlowfish c m) = some m) := by
  have hple := Crypto.le_paddedLength m.length c.blockSize hbs
  have hplen : (m ++ List.replicate
      (Crypto.paddedLength m.length c.blockSize - m.length) 0).length =
      ((m.length + c.blockSize - 1) / c.blockSize) * c.blockSize := by
    simp only [List.length_append, List.length_replicate]
    have hdef : Crypto.paddedLength m.length c.blockSize =
        ((m.length + c.blockSize - 1) / c.blockSize) * c.blockSize := rfl
    omega
  have hEnc : Crypto.EncryptBlowfish c m =
      Crypto.processBlocks c.encryptBlock c.blockSize
        ((m.length + c.blockSize - 1) / c.blockSize)
        (m ++ List.replicate
          (Crypto.paddedLength m.length c.blockSize - m.length) 0) := by
    simp only [Crypto.EncryptBlowfish, hplen, Nat.mul_div_cancel _ hbs]
  have henclen : (Crypto.EncryptBlowfish c m).length =
      ((m.length + c.blockSize - 1) / c.blockSize) * c.blockSize := by
    rw [hEnc]
    exact Crypto.processBlocks_length c.encryptBlock c.blockSize hlen _ _ hplen
  have hmain : Crypto.DecryptBlowfish c (Crypto.EncryptBlowfish c m) =
      some (m ++ List.replicate
        (Crypto.paddedLength m.length c.blockSize - m.length) 0) := by
    unfold Crypto.DecryptBlowfish
    rw [henclen]
    rw [if_pos (Nat.mul_mod_left _ _)]
    rw [Nat.mul_div_cancel _ hbs, hEnc]
    rw [Crypto.processBlocks_roundtrip c hlen hinv _ _ hplen]
  refine ⟨hmain, fun hmod => ?_⟩
  rw [hmain, Crypto.paddedLength_of_mod_eq_zero m.length c.blockSize hbs hmod]
  simp

/-- Witness for C4 at a 2-byte block cipher whose block transform is
`List.reverse` and the 3-byte message `[1, 2, 3]`: decryption returns the
message zero-padded to the 4-byte boundary. -/
theorem c4_blowfish_roundtrip_witness :
    Crypto.DecryptBlowfish ⟨2, List.reverse, List.reverse⟩
      (Crypto.EncryptBlowfish ⟨2, List.reverse, List.reverse⟩ [1, 2, 3]) =
      some [1, 2, 3, 0] := by
  have h := c4_blowfish_roundtrip ⟨2, List.reverse, List.reverse⟩ [1, 2, 3]
    (by decide) (fun b hb => by simpa using hb) (fun b hb => by simp)
  simpa [Crypto.paddedLength] using h.1

theorem Crypto.xorApply_xorApply (k d : List Nat) :
    Crypto.xorApply k (Crypto.xorApply k d) = d := by
  apply List.ext_getElem
  · simp [Crypto.xorApply]
  · intro i h1 h2
    simp [Crypto.xorApply, List.getElem_map, List.getElem_enum,
      Nat.xor_cancel_right]

theorem Crypto.initXOR_keys (key : List Nat) :
    (Crypto.InitXOR key).inputKey = (Crypto.InitXOR key).outputKey := by
  unfold Crypto.InitXOR NewCipherXor
  split <;> rfl

theorem Crypto.encryptSeq_eq (st : Crypto.XorCipher) (ms : List (List Nat)) :
    Crypto.encryptSeq st ms =
      (ms.map fun m => Crypto.xorApply st.outputKey m, st) := by
  induction ms with
  | nil => rfl
  | cons m ms ih =>
      simp [Crypto.encryptSeq, Crypto.EncryptXOR, Crypto.xorEncrypt, ih]

theorem Crypto.decryptSeq_eq (st : Crypto.XorCipher) (cs : List (List Nat)) :
    Crypto.decryptSeq st cs =
      (cs.map fun c => Crypto.xorApply st.inputKey c, st) := by
  induction cs with
  | nil => rfl
  | cons c cs ih =>
      simp [Crypto.decryptSeq, Crypto.DecryptXOR, Crypto.xorDecrypt, ih]

/-- Claim C5 (amended): after `InitializeXOR`, encrypting a sequence of
world-channel messages in order and decrypting the ciphertexts in the same
order reproduces the exact original sequence — but so does decrypting them
in any other order (any selection of positions), because `EncryptXOR` and
`DecryptXOR` hand `xor.Encrypt`/`xor.Decrypt` a copy of the key buffer and
discard the advanced copy: no operation ever advances the engine's key
state. -/
theorem c5_xor_stateless_order_independent (key : List Nat)
    (ms : List (List Nat)) (idxs : List Nat) :
    (Crypto.encryptSeq (Crypto.InitXOR key) ms).2 = Crypto.InitXOR key ∧
    (Crypto.decryptSeq (Crypto.InitXOR key)
        (Crypto.encryptSeq (Crypto.InitXOR key) ms).1).1 = ms ∧
    (Crypto.decryptSeq (Crypto.InitXOR key)
        (idxs.map fun i =>
          (Crypto.encryptSeq (Crypto.InitXOR key) ms).1.getD i [])).1 =
      idxs.map fun i => ms.getD i [] := by
  have hk := Crypto.initXOR_keys key
  have hcomp : ∀ m : List Nat,
      Crypto.xorApply (Crypto.InitXOR key).inputKey
        (Crypto.xorApply (Crypto.InitXOR key).outputKey m) = m := by
    intro m
    rw [hk, Crypto.xorApply_xorApply]
  have hgetD : ∀ i : Nat,
      (ms.map fun m =>
        Crypto.xorApply (Crypto.InitXOR key).outputKey m).getD i [] =
      Crypto.xorApply (Crypto.InitXOR key).outputKey (ms.getD i []) := by
    intro i
    simp only [List.getD_eq_getElem?_getD, List.getElem?_map]
    cases ms[i]? with
    | none => rfl
    | some a => rfl
  refine ⟨by rw [Crypto.encryptSeq_eq], ?_, ?_⟩
  · rw [Crypto.encryptSeq_eq]
    simp only [Crypto.decryptSeq_eq, List.map_map, Function.comp_def, hcomp]
    exact List.map_id' ms
  · rw [Crypto.encryptSeq_eq]
    simp only [Crypto.decryptSeq_eq, List.map_map, Function.comp_def,
      List.getD_eq_getElem?_getD, List.getElem?_map, List.map_inj_left]
    intro i hi
    cases ms[i]? with
    | none => rfl
    | some a => simpa using hcomp a

/-- Counterexample to C5 as stated: with the engine initialized from the
key `[1..8]`, encrypting `[10]` leaves the engine's key state exactly as it
was (nothing is advanced from the bytes just processed), and the second
ciphertext — produced after the first encryption — still decrypts
correctly as the *first* decryption performed on the receiving engine:
out-of-order decryption reproduces the original message. -/
theorem c5_counterexample :
    (Crypto.EncryptXOR (Crypto.InitXOR [1, 2, 3, 4, 5, 6, 7, 8]) [10]).2 =
      Crypto.InitXOR [1, 2, 3, 4, 5, 6, 7, 8] ∧
    (Crypto.DecryptXOR (Crypto.InitXOR [1, 2, 3, 4, 5, 6, 7, 8])
        (Crypto.EncryptXOR
          (Crypto.EncryptXOR (Crypto.InitXOR [1, 2, 3, 4, 5, 6, 7, 8])
            [10]).2 [20]).1).1 = [20] ∧
    ([10] : List Nat) ≠ [20] := by
  refine ⟨rfl, by decide, by decide⟩

theorem LoginServer.removeFirst_not_mem (sid : List Nat)
    (clients : List LoginServer.Client)
    (h : sid ∉ clients.map LoginServer.Client.sessionID) :
    LoginServer.removeFirstBySession sid clients = clients := by
  induction clients with
  | nil => rfl
  | cons c cs ih =>
      simp only [List.map_cons, List.mem_cons, not_or] at h
      rw [LoginServer.removeFirstBySession,
        if_neg (fun hc => h.1 hc.symm), ih h.2]

theorem LoginServer.removeFirst_mem (sid : List Nat)
    (clients : List LoginServer.Client)
    (h : sid ∈ clients.map LoginServer.Client.sessionID) :
    ∃ (l1 : List LoginServer.Client) (c : LoginServer.Client)
      (l2 : List LoginServer.Client),
      clients = l1 ++ c :: l2 ∧ c.sessionID = sid ∧
      (∀ x ∈ l1, x.sessionID ≠ sid) ∧
      LoginServer.removeFirstBySession sid clients = l1 ++ l2 := by
  induction clients with
  | nil => simp at h
  | cons c cs ih =>
      by_cases hc : c.sessionID = sid
      · exact ⟨[], c, cs, by simp, hc, by simp,
          by simp [LoginServer.removeFirstBySession, hc]⟩
      · have h' : sid ∈ cs.map LoginServer.Client.sessionID := by
          rcases List.mem_cons.mp h with heq | hmem
          · exact absurd heq.symm hc
          · exact hmem
        obtain ⟨l1, c0, l2, he, hcs, hl1, hrm⟩ := ih h'
        refine ⟨c :: l1, c0, l2, by simp [he], hcs, ?_, ?_⟩
        · intro x hx
          rcases List.mem_cons.mp hx with rfl | hx
          · exact hc
          · exact hl1 x hx
        · simp [LoginServer.removeFirstBySession, hc, hrm]

/-- Claim C8: evicting a client whose session identifier is registered
closes the transport and removes exactly one entry — the first (hence,
under the registry's uniqueness invariant, the unique) matching one;
evicting a client whose session identifier is not registered leaves the
registry unchanged and raises no error. -/
theorem c8_kickClient_spec (clients : List LoginServer.Client)
    (client : LoginServer.Client) :
    (LoginServer.kickClient clients client).1 = true ∧
    (client.sessionID ∉ clients.map LoginServer.Client.sessionID →
      (LoginServer.kickClient clients client).2 = clients) ∧
    (client.sessionID ∈ clients.map LoginServer.Client.sessionID →
      ∃ (l1 : List LoginServer.Client) (c : LoginServer.Client)
        (l2 : List LoginServer.Client),
        clients = l1 ++ c :: l2 ∧ c.sessionID = client.sessionID ∧
        (∀ x ∈ l1, x.sessionID ≠ client.sessionID) ∧
        (LoginServer.kickClient clients client).2 = l1 ++ l2) :=
  ⟨rfl, fun h => LoginServer.removeFirst_not_mem _ _ h,
   fun h => LoginServer.removeFirst_mem _ _ h⟩

/-- Witness for C8 at a concrete registry: kicking the registered session
`[2]` removes exactly its entry; kicking the unknown session `[9]` is a
registry no-op; the transport is closed in both runs. -/
theorem c8_kickClient_spec_witness :
    (LoginServer.kickClient
      [⟨[1], ⟨0, "", "", 0⟩⟩, ⟨[2], ⟨0, "", "", 0⟩⟩] ⟨[9], ⟨0, "", "", 0⟩⟩).1
      = true ∧
    (LoginServer.kickClient
      [⟨[1], ⟨0, "", "", 0⟩⟩, ⟨[2], ⟨0, "", "", 0⟩⟩] ⟨[9], ⟨0, "", "", 0⟩⟩).2
      = [⟨[1], ⟨0, "", "", 0⟩⟩, ⟨[2], ⟨0, "", "", 0⟩⟩] := by
  refine ⟨(c8_kickClient_spec _ _).1, (c8_kickClient_spec _ _).2.1 ?_⟩
  decide

/-- Claim C2 (code bug): the play-request validity condition is not
evaluated totally.  With one configured world server and target server id
0, the range guard `len(GameServers) >= int(0)` passes, and the handler
then indexes `GameServers[0-1]`; the `uint8` subtraction wraps to index
255 (out of range for the directory), a Go panic — embedded as `none` —
instead of the hack-attempt increment and play-failure reply the claim
requires for an invalid target id. -/
theorem c2_play_request_panics_on_zero_id :
    LoginServer.handleClientPacket ⟨true, [⟨false⟩]⟩
      ⟨[0, 1, 2, 3, 4, 5, 6, 7, 8, 9, 10, 11, 12, 13, 14, 15], ⟨0, "", "", 0⟩⟩
      ⟨LoginServer.DbLookup.noRows, none, none, false⟩
      (LoginServer.ClientPacket.requestPlay ⟨[0, 1, 2, 3, 4, 5, 6, 7], 0⟩)
      ⟨0, 0, 0, 0, 0⟩ = none := by
  rfl

/-- Claim C3 (amended): for every play request whose target server id
passes the validity condition but whose supplied 8-byte session-identifier
prefix differs from the connection's own, hack-attempts increases by
exactly 1 (the other counters are untouched), the connection remains open
— but the response sent is a *login-fail* packet
(`NewLoginFailPacket`) carrying the access-denied reason, not a play-fail
packet. -/
theorem c3_play_session_mismatch (cfg : LoginServer.Config)
    (client : LoginServer.Client) (ext : LoginServer.AuthExternals)
    (req : LoginServer.RequestPlay) (st : LoginServer.Status)
    (gs : LoginServer.GameServer)
    (hlen : req.serverID ≤ cfg.gameServers.length)
    (hidx : cfg.gameServers[(req.serverID + 255) % 256]? = some gs)
    (haccess : gs.testing = false ∨
      LoginServer.ACCESS_LEVEL_PLAYER < client.account.accessLevel)
    (hmismatch : client.sessionID.take 8 ≠ req.sessionID) :
    LoginServer.handleClientPacket cfg client ext
        (LoginServer.ClientPacket.requestPlay req) st =
      some ⟨{st with hackAttempts := LoginServer.inc32 st.hackAttempts},
        client,
        some (LoginServer.ServerPacket.loginFail
          LoginServer.Reason.REASON_ACCESS_FAILED), true⟩ := by
  simp only [LoginServer.handleClientPacket, LoginServer.handleRequestPlay,
    if_pos hlen, hidx, if_pos haccess, if_pos hmismatch]

/-- Witness for C3 at a concrete valid target (server 1, non-testing) and
a mismatching session-identifier prefix. -/
theorem c3_play_session_mismatch_witness :
    LoginServer.handleClientPacket ⟨true, [⟨false⟩]⟩
      ⟨[0, 1, 2, 3, 4, 5, 6, 7, 8, 9, 10, 11, 12, 13, 14, 15], ⟨0, "", "", 0⟩⟩
      ⟨LoginServer.DbLookup.noRows, none, none, false⟩
      (LoginServer.ClientPacket.requestPlay ⟨[9, 9, 9, 9, 9, 9, 9, 9], 1⟩)
      ⟨0, 0, 0, 0, 0⟩ =
      some ⟨⟨0, 0, 0, 0, 1⟩,
        ⟨[0, 1, 2, 3, 4, 5, 6, 7, 8, 9, 10, 11, 12, 13, 14, 15], ⟨0, "", "", 0⟩⟩,
        some (LoginServer.ServerPacket.loginFail
          LoginServer.Reason.REASON_ACCESS_FAILED), true⟩ := by
  exact c3_play_session_mismatch _ _ _ _ _ ⟨false⟩
    (by decide) (by decide) (by decide) (by decide)

/-- Counterexample to C3 as stated: at a concrete valid target with a
mismatching session-identifier prefix, the reply is built by
`NewLoginFailPacket` — a login-fail packet with the access-denied reason —
which is not the play-fail packet with the access-denied reason that the
claim names. -/
theorem c3_counterexample :
    (LoginServer.handleRequestPlay ⟨true, [⟨false⟩]⟩
      ⟨[0, 1, 2, 3, 4, 5, 6, 7, 8, 9, 10, 11, 12, 13, 14, 15], ⟨0, "", "", 0⟩⟩
      ⟨[9, 9, 9, 9, 9, 9, 9, 9], 1⟩ ⟨0, 0, 0, 0, 0⟩) =
      some (⟨0, 0, 0, 0, 1⟩,
        LoginServer.ServerPacket.loginFail
          LoginServer.Reason.REASON_ACCESS_FAILED) ∧
    LoginServer.ServerPacket.loginFail LoginServer.Reason.REASON_ACCESS_FAILED ≠
      LoginServer.ServerPacket.playFail LoginServer.Reason.REASON_ACCESS_FAILED := by
  refine ⟨by decide, by decide⟩

theorem LoginServer.handleAuthLogin_status (cfg : LoginServer.Config)
    (client : LoginServer.Client) (req : LoginServer.RequestAuthLogin)
    (ext : LoginServer.AuthExternals) (st : LoginServer.Status) :
    (LoginServer.handleAuthLogin cfg client req ext st).1 = st ∨
    (LoginServer.handleAuthLogin cfg client req ext st).1 =
      {st with successfulAccountCreation :=
        LoginServer.inc32 st.successfulAccountCreation} ∨
    (LoginServer.handleAuthLogin cfg client req ext st).1 =
      {st with failedAccountCreation :=
        LoginServer.inc32 st.failedAccountCreation} ∨
    (LoginServer.handleAuthLogin cfg client req ext st).1 =
      {st with successfulLogins := LoginServer.inc32 st.successfulLogins} ∨
    (LoginServer.handleAuthLogin cfg client req ext st).1 =
      {st with failedLogins := LoginServer.inc32 st.failedLogins} := by
  rcases ext with ⟨lookup, hashResult, insertResult, pw⟩
  rcases lookup with _ | _ | account <;>
    rcases hashResult with _ | h <;>
      rcases insertResult with _ | idv <;>
        rcases pw with _ | _ <;>
          simp [LoginServer.handleAuthLogin]
  all_goals (split <;> simp)

theorem LoginServer.handleRequestPlay_status (cfg : LoginServer.Config)
    (client : LoginServer.Client) (req : LoginServer.RequestPlay)
    (st : LoginServer.Status) (r : LoginServer.Status × LoginServer.ServerPacket)
    (h : LoginServer.handleRequestPlay cfg client req st = some r) :
    r.1 = st ∨
    r.1 = {st with hackAttempts := LoginServer.inc32 st.hackAttempts} := by
  unfold LoginServer.handleRequestPlay at h
  split at h
  · split at h
    · exact absurd h (by simp)
    · split at h
      · split at h <;> (injection h with h; subst h; simp)
      · injection h with h; subst h; simp
  · injection h with h; subst h; simp

theorem LoginServer.handleServerListRequest_status
    (client : LoginServer.Client) (req : LoginServer.RequestServerList)
    (st : LoginServer.Status) :
    (LoginServer.handleServerListRequest client req st).1 = st ∨
    (LoginServer.handleServerListRequest client req st).1 =
      {st with hackAttempts := LoginServer.inc32 st.hackAttempts} := by
  unfold LoginServer.handleServerListRequest
  split <;> simp

/-- Claim C9 (amended): every packet-handling step of the authentication
state machine (every opcode branch that completes without panicking)
leaves each of the five status counters either unchanged or incremented by
exactly 1 modulo 2^32 — the counters are `uint32`, so a counter never
decreases unless it stood at the maximum value 4294967295, where the
wrap-around of `+= 1` resets it to 0. -/
theorem c9_counters_step (cfg : LoginServer.Config)
    (client : LoginServer.Client) (ext : LoginServer.AuthExternals)
    (pkt : LoginServer.ClientPacket) (st : LoginServer.Status)
    (res : LoginServer.StepResult)
    (h : LoginServer.handleClientPacket cfg client ext pkt st = some res) :
    (res.status.successfulAccountCreation = st.successfulAccountCreation ∨
      res.status.successfulAccountCreation =
        LoginServer.inc32 st.successfulAccountCreation) ∧
    (res.status.failedAccountCreation = st.failedAccountCreation ∨
      res.status.failedAccountCreation =
        LoginServer.inc32 st.failedAccountCreation) ∧
    (res.status.successfulLogins = st.successfulLogins ∨
      res.status.successfulLogins = LoginServer.inc32 st.successfulLogins) ∧
    (res.status.failedLogins = st.failedLogins ∨
      res.status.failedLogins = LoginServer.inc32 st.failedLogins) ∧
    (res.status.hackAttempts = st.hackAttempts ∨
      res.status.hackAttempts = LoginServer.inc32 st.hackAttempts) := by
  cases pkt with
  | authLogin req =>
      simp only [LoginServer.handleClientPacket, Option.some.injEq] at h
      subst h
      rcases LoginServer.handleAuthLogin_status cfg client req ext st with
        hs | hs | hs | hs | hs <;> rw [hs] <;> simp
  | requestPlay req =>
      simp only [LoginServer.handleClientPacket] at h
      cases hp : LoginServer.handleRequestPlay cfg client req st with
      | none => rw [hp] at h; exact absurd h (by simp)
      | some r =>
          rw [hp] at h
          simp only [Option.some.injEq] at h
          subst h
          rcases LoginServer.handleRequestPlay_status cfg client req st r hp with
            hs | hs <;> rw [hs] <;> simp
  | requestServerList req =>
      simp only [LoginServer.handleClientPacket, Option.some.injEq] at h
      subst h
      rcases LoginServer.handleServerListRequest_status client req st with
        hs | hs <;> rw [hs] <;> simp
  | unknown opcode =>
      simp only [LoginServer.handleClientPacket, Option.some.injEq] at h
      subst h
      simp

/-- Witness for C9's amended theorem: an invalid play request (empty world
directory) increments hack-attempts from 0 to 1 = `inc32 0`. -/
theorem c9_counters_step_witness :
    LoginServer.handleClientPacket ⟨true, []⟩ ⟨[], ⟨0, "", "", 0⟩⟩
      ⟨LoginServer.DbLookup.noRows, none, none, false⟩
      (LoginServer.ClientPacket.requestPlay ⟨[], 1⟩) ⟨0, 0, 0, 0, 0⟩ =
      some ⟨⟨0, 0, 0, 0, 1⟩, ⟨[], ⟨0, "", "", 0⟩⟩,
        some (LoginServer.ServerPacket.playFail
          LoginServer.Reason.REASON_ACCESS_FAILED), true⟩ ∧
    ((1 : Nat) = (0 : Nat) ∨ (1 : Nat) = LoginServer.inc32 0) := by
  refine ⟨by decide, ?_⟩
  exact (c9_counters_step ⟨true, []⟩ ⟨[], ⟨0, "", "", 0⟩⟩
    ⟨LoginServer.DbLookup.noRows, none, none, false⟩
    (LoginServer.ClientPacket.requestPlay ⟨[], 1⟩) ⟨0, 0, 0, 0, 0⟩
    ⟨⟨0, 0, 0, 0, 1⟩, ⟨[], ⟨0, "", "", 0⟩⟩,
      some (LoginServer.ServerPacket.playFail
        LoginServer.Reason.REASON_ACCESS_FAILED), true⟩
    (by decide)).2.2.2.2

/-- Counterexample to C9 as stated: with hack-attempts at the maximum
`uint32` value 4294967295, handling an invalid play request wraps the
counter to 0 — the counter decreases, contradicting "never decreases or
resets". -/
theorem c9_counterexample :
    LoginServer.handleClientPacket ⟨true, []⟩ ⟨[], ⟨0, "", "", 0⟩⟩
      ⟨LoginServer.DbLookup.noRows, none, none, false⟩
      (LoginServer.ClientPacket.requestPlay ⟨[], 1⟩)
      ⟨0, 0, 0, 0, 4294967295⟩ =
      some ⟨⟨0, 0, 0, 0, 0⟩, ⟨[], ⟨0, "", "", 0⟩⟩,
        some (LoginServer.ServerPacket.playFail
          LoginServer.Reason.REASON_ACCESS_FAILED), true⟩ ∧
    (0 : Nat) < 4294967295 := by
  refine ⟨by decide, by decide⟩
